import Mathlib

/-!
Verification of `src/vs/workbench/contrib/extensions/electron-browser/extensionsDependencyChecker.ts`
(the `ExtensionDependencyChecker` workbench contribution).

The pure dependency computations (`getAllMissingDependencies`,
`getUninstalledMissingDependencies`) are embedded directly.  The JavaScript
`Set<string>` is embedded as an insertion-ordered duplicate-free list
(`insertSet`), matching `Set.add` / `values(...)` semantics.

The effectful methods (`installMissingDependencies`,
`checkAndInstallMissingDependencies`) are embedded as functions from a service
state to the trace of observable service calls (gallery queries, install
calls, notifications) plus an `Option`al propagated rejection, mirroring the
async control flow of the source: the gallery query is awaited first, all
install calls are issued before the joint `Promise.all` await, and the
"finished" notification fires only when every install resolved.
-/

/-- `ExtensionIdentifier` of a running extension (`r.identifier.value`). -/
structure ExtensionIdentifier where
  value : String
deriving DecidableEq

/-- Shape of a running extension as used by the checker:
`{ identifier, extensionDependencies? }`.  A missing (undefined)
`extensionDependencies` field is `none`. -/
structure IExtensionDescription where
  identifier : ExtensionIdentifier
  extensionDependencies : Option (List String)
deriving DecidableEq

/-- Identifier of a gallery/local extension (`{ id }`). -/
structure IExtensionIdentifier where
  id : String
deriving DecidableEq

/-- A locally installed extension as used by the checker (only its
`identifier` field is consulted). -/
structure ILocalExtension where
  identifier : IExtensionIdentifier
deriving DecidableEq

/-- JavaScript `toLowerCase()` as used on extension identifiers: lower-cases
every character (ASCII case folding, via `Char.toLower`). -/
def toLowerCase (s : String) : String :=
  ⟨s.data.map Char.toLower⟩

/-- JavaScript `Set.add` on an insertion-ordered set embedded as a
duplicate-free list: appends the element unless it is already present. -/
def insertSet (s : List String) (x : String) : List String :=
  if x ∈ s then s else s ++ [x]

/-- The `runningExtensionsIds` set built by `getAllMissingDependencies`:
`runningExtensions.reduce((result, r) => result.add(r.identifier.value.toLowerCase()), new Set())`. -/
def runningExtensionsIds (runningExtensions : List IExtensionDescription) : List String :=
  runningExtensions.foldl (fun result r => insertSet result (toLowerCase r.identifier.value)) []

/-- `getAllMissingDependencies`: for each running extension with a declared
`extensionDependencies` list, each dependency whose lower-cased form is not in
`runningExtensionsIds` is added (original casing) to the `missingDependencies`
set; `values(missingDependencies)` returns the insertion-ordered elements. -/
def getAllMissingDependencies (runningExtensions : List IExtensionDescription) : List String :=
  runningExtensions.foldl
    (fun missingDependencies extension =>
      match extension.extensionDependencies with
      | some deps =>
          deps.foldl
            (fun missing dep =>
              if toLowerCase dep ∈ runningExtensionsIds runningExtensions then missing
              else insertSet missing dep)
            missingDependencies
      | none => missingDependencies)
    []

/-- Modelled from the spec: `areSameExtensions` (from
`vs/platform/extensionManagement/common/extensionManagementUtil`, not part of
this repository snapshot) is described by the spec as the identity-normalized
comparison of extension identifiers — case-normalized equality of the `id`
strings. -/
def areSameExtensions (a b : IExtensionIdentifier) : Bool :=
  toLowerCase a.id == toLowerCase b.id

/-- `getUninstalledMissingDependencies`: filters `getAllMissingDependencies`
to the identifiers matching no locally installed extension, via
`localExtensions.every(l => !areSameExtensions(l.identifier, { id }))`. -/
def getUninstalledMissingDependencies (runningExtensions : List IExtensionDescription)
    (localExtensions : List ILocalExtension) : List String :=
  (getAllMissingDependencies runningExtensions).filter
    (fun id => localExtensions.all fun l => !(areSameExtensions l.identifier ⟨id⟩))

theorem mem_insertSet {s : List String} {x y : String} :
    x ∈ insertSet s y ↔ x ∈ s ∨ x = y := by
  unfold insertSet
  split
  · rename_i h
    constructor
    · exact Or.inl
    · rintro (hx | rfl)
      · exact hx
      · exact h
  · simp [List.mem_append]

theorem nodup_insertSet {s : List String} {y : String} (h : s.Nodup) :
    (insertSet s y).Nodup := by
  unfold insertSet
  split
  · exact h
  · rename_i hy
    refine List.Nodup.append h (List.nodup_singleton y) ?_
    intro a ha hb
    simp only [List.mem_singleton] at hb
    exact hy (hb ▸ ha)

theorem mem_foldl_insertSet {α : Type} (f : α → String) (l : List α) (init : List String)
    (x : String) :
    x ∈ l.foldl (fun s r => insertSet s (f r)) init ↔ x ∈ init ∨ ∃ r ∈ l, f r = x := by
  induction l generalizing init with
  | nil => simp
  | cons a l ih =>
    simp only [List.foldl_cons, ih, mem_insertSet, List.mem_cons]
    constructor
    · rintro ((hx | rfl) | ⟨r, hr, hf⟩)
      · exact Or.inl hx
      · exact Or.inr ⟨a, Or.inl rfl, rfl⟩
      · exact Or.inr ⟨r, Or.inr hr, hf⟩
    · rintro (hx | ⟨r, (rfl | hr), hf⟩)
      · exact Or.inl (Or.inl hx)
      · exact Or.inl (Or.inr hf.symm)
      · exact Or.inr ⟨r, hr, hf⟩

theorem mem_runningExtensionsIds {exts : List IExtensionDescription} {x : String} :
    x ∈ runningExtensionsIds exts ↔ ∃ r ∈ exts, toLowerCase r.identifier.value = x := by
  unfold runningExtensionsIds
  simpa using mem_foldl_insertSet (fun r => toLowerCase r.identifier.value) exts [] x

theorem mem_depFold {p : String → Prop} [DecidablePred p] (deps acc : List String) (x : String) :
    x ∈ deps.foldl (fun missing dep => if p dep then missing else insertSet missing dep) acc ↔
      x ∈ acc ∨ (x ∈ deps ∧ ¬ p x) := by
  induction deps generalizing acc with
  | nil => simp
  | cons d deps ih =>
    simp only [List.foldl_cons, ih, List.mem_cons]
    by_cases hd : p d
    · rw [if_pos hd]
      constructor
      · rintro (hx | hr)
        · exact Or.inl hx
        · exact Or.inr ⟨Or.inr hr.1, hr.2⟩
      · rintro (hx | ⟨rfl | hr, hp⟩)
        · exact Or.inl hx
        · exact absurd hd hp
        · exact Or.inr ⟨hr, hp⟩
    · rw [if_neg hd]
      simp only [mem_insertSet]
      constructor
      · rintro ((hx | rfl) | hr)
        · exact Or.inl hx
        · exact Or.inr ⟨Or.inl rfl, hd⟩
        · exact Or.inr ⟨Or.inr hr.1, hr.2⟩
      · rintro (hx | ⟨rfl | hr, hp⟩)
        · exact Or.inl (Or.inl hx)
        · exact Or.inl (Or.inr rfl)
        · exact Or.inr ⟨hr, hp⟩

theorem mem_missingFold {p : String → Prop} [DecidablePred p]
    (exts : List IExtensionDescription) (acc : List String) (x : String) :
    x ∈ exts.foldl
        (fun missingDependencies extension =>
          match extension.extensionDependencies with
          | some deps =>
              deps.foldl
                (fun missing dep => if p dep then missing else insertSet missing dep)
                missingDependencies
          | none => missingDependencies)
        acc ↔
      x ∈ acc ∨
        ((∃ e ∈ exts, ∃ deps, e.extensionDependencies = some deps ∧ x ∈ deps) ∧ ¬ p x) := by
  induction exts generalizing acc with
  | nil => simp
  | cons e exts ih =>
    simp only [List.foldl_cons, ih, List.mem_cons]
    cases h : e.extensionDependencies with
    | none =>
      constructor
      · rintro (hx | hr)
        · exact Or.inl hx
        · exact Or.inr ⟨⟨hr.1.choose, Or.inr hr.1.choose_spec.1, hr.1.choose_spec.2⟩, hr.2⟩
      · rintro (hx | ⟨⟨f, (rfl | hf), deps, hdeps, hmem⟩, hp⟩)
        · exact Or.inl hx
        · rw [h] at hdeps; exact absurd hdeps (by simp)
        · exact Or.inr ⟨⟨f, hf, deps, hdeps, hmem⟩, hp⟩
    | some deps =>
      rw [mem_depFold]
      constructor
      · rintro ((hx | ⟨hmem, hp⟩) | ⟨⟨f, hf, deps2, hdeps2, hmem2⟩, hp⟩)
        · exact Or.inl hx
        · exact Or.inr ⟨⟨e, Or.inl rfl, deps, h, hmem⟩, hp⟩
        · exact Or.inr ⟨⟨f, Or.inr hf, deps2, hdeps2, hmem2⟩, hp⟩
      · rintro (hx | ⟨⟨f, (rfl | hf), deps2, hdeps2, hmem2⟩, hp⟩)
        · exact Or.inl (Or.inl hx)
        · rw [h] at hdeps2
          cases hdeps2
          exact Or.inl (Or.inr ⟨hmem2, hp⟩)
        · exact Or.inr ⟨⟨f, hf, deps2, hdeps2, hmem2⟩, hp⟩

theorem mem_getAllMissingDependencies {exts : List IExtensionDescription} {d : String} :
    d ∈ getAllMissingDependencies exts ↔
      (∃ e ∈ exts, ∃ deps, e.extensionDependencies = some deps ∧ d ∈ deps) ∧
        toLowerCase d ∉ runningExtensionsIds exts := by
  unfold getAllMissingDependencies
  rw [mem_missingFold]
  simp

theorem nodup_depFold {p : String → Prop} [DecidablePred p] (deps acc : List String)
    (h : acc.Nodup) :
    (deps.foldl (fun missing dep => if p dep then missing else insertSet missing dep) acc).Nodup := by
  induction deps generalizing acc with
  | nil => exact h
  | cons d deps ih =>
    simp only [List.foldl_cons]
    apply ih
    split
    · exact h
    · exact nodup_insertSet h

theorem nodup_missingFold {p : String → Prop} [DecidablePred p]
    (exts : List IExtensionDescription) (acc : List String) (h : acc.Nodup) :
    (exts.foldl
        (fun missingDependencies extension =>
          match extension.extensionDependencies with
          | some deps =>
              deps.foldl
                (fun missing dep => if p dep then missing else insertSet missing dep)
                missingDependencies
          | none => missingDependencies)
        acc).Nodup := by
  induction exts generalizing acc with
  | nil => exact h
  | cons e exts ih =>
    simp only [List.foldl_cons]
    apply ih
    cases he : e.extensionDependencies with
    | none => exact h
    | some deps => exact nodup_depFold deps acc h

/-- Severity levels of the notification service. -/
inductive Severity where
  | ignore
  | info
  | warning
  | error
deriving DecidableEq

/-- Observable calls that `installMissingDependencies` makes on the host
services: the gallery query, each `install(extension)` call, the
`notificationService.notify` call (recording severity, message, and whether a
reload-window action is attached), and `notificationService.info`. -/
inductive Event where
  | galleryQuery (names : List String) (pageSize : Nat)
  | install (extensionId : String)
  | notify (severity : Severity) (message : String) (hasReloadAction : Bool)
  | info (message : String)
deriving DecidableEq

/-- Whether an event shows a notification (either `notify` or `info`). -/
def Event.isNotification : Event → Bool
  | Event.notify _ _ _ => true
  | Event.info _ => true
  | _ => false

/-- State of the injected host services, as far as the checker observes them:
the running extensions (`extensionService.getExtensions()`), the local
extensions (`extensionsWorkbenchService.queryLocal()`), the first page the
gallery returns for a `{names, pageSize}` query (descriptors identified by
their id strings), which install calls reject (`some` error message) or
resolve (`none`), and the `extensions.autoInstallMissingDependencies`
configuration value. -/
structure Services where
  runningExtensions : List IExtensionDescription
  localExtensions : List ILocalExtension
  galleryFirstPage : List String → Nat → List String
  installError : String → Option String
  autoInstallMissingDependencies : Bool

/-- Outcome of one method run: the trace of observable service calls, and the
propagated rejection (`some` error) if the returned promise rejects. -/
structure RunResult where
  events : List Event
  rejected : Option String
deriving DecidableEq

/-- Message of the success notification. -/
def finishedMessage : String :=
  "Finished installing missing dependencies. Please reload the window now."

/-- Message of the nothing-to-install notification. -/
def noMissingMessage : String :=
  "There are no missing dependencies to install."

/-- `installMissingDependencies`: recomputes the uninstalled missing
dependencies; if non-empty, awaits the gallery query and, if its first page is
non-empty, issues all install calls before the joint `Promise.all` await — a
rejection of any install rejects the whole run (first rejection propagated,
no notification), otherwise the single success notification with the
reload-window action follows; an empty first page ends the run silently.  If
the missing list is empty, a single `info` notification is shown. -/
def installMissingDependencies (s : Services) : RunResult :=
  let missingDependencies := getUninstalledMissingDependencies s.runningExtensions s.localExtensions
  if missingDependencies.length ≠ 0 then
    let extensions := s.galleryFirstPage missingDependencies missingDependencies.length
    if extensions.length ≠ 0 then
      match extensions.findSome? s.installError with
      | some err =>
          { events := Event.galleryQuery missingDependencies missingDependencies.length ::
              extensions.map Event.install,
            rejected := some err }
      | none =>
          { events := Event.galleryQuery missingDependencies missingDependencies.length ::
              (extensions.map Event.install ++
                [Event.notify Severity.info finishedMessage true]),
            rejected := none }
    else
      { events := [Event.galleryQuery missingDependencies missingDependencies.length],
        rejected := none }
  else
    { events := [Event.info noMissingMessage], rejected := none }

/-- `checkAndInstallMissingDependencies`: computes the uninstalled missing
dependencies and, when the list is non-empty and the
`extensions.autoInstallMissingDependencies` configuration value is `true`,
runs `installMissingDependencies`; otherwise it does nothing observable. -/
def checkAndInstallMissingDependencies (s : Services) : RunResult :=
  let missingDependencies := getUninstalledMissingDependencies s.runningExtensions s.localExtensions
  if missingDependencies.length > 0 ∧ s.autoInstallMissingDependencies = true then
    installMissingDependencies s
  else
    { events := [], rejected := none }

/-- Entry points of the contribution: the constructor runs an initial check,
a change of the `extensions.autoInstallMissingDependencies` configuration
re-runs the check, and invoking the registered command
`workbench.extensions.installMissingDepenencies` runs the installer directly. -/
inductive Trigger where
  | construction
  | configurationChange
  | commandInvocation
deriving DecidableEq

/-- Behavior of one entry point of the contribution against a service state. -/
def runTrigger : Trigger → Services → RunResult
  | Trigger.construction, s => checkAndInstallMissingDependencies s
  | Trigger.configurationChange, s => checkAndInstallMissingDependencies s
  | Trigger.commandInvocation, s => installMissingDependencies s

theorem findSome?_eq_none_iff {α β : Type} (l : List α) (f : α → Option β) :
    l.findSome? f = none ↔ ∀ x ∈ l, f x = none := by
  induction l with
  | nil => simp
  | cons a l ih =>
    rw [List.findSome?_cons]
    cases h : f a with
    | none => simp [h, ih]
    | some b => simp [h]

theorem installMissingDependencies_events_ne_nil (s : Services) :
    (installMissingDependencies s).events ≠ [] := by
  unfold installMissingDependencies
  simp only []
  split
  · split
    · split <;> simp
    · simp
  · simp

/-- Claim C1: for every list of running extensions, `getAllMissingDependencies`
returns exactly the set of dependency identifiers declared by some running
extension whose lower-cased form is not the (lower-cased) identifier of any
running extension; identifiers whose lower-cased form matches a running
extension's identifier are never included. -/
theorem getAllMissingDependencies_exact (exts : List IExtensionDescription) (d : String) :
    d ∈ getAllMissingDependencies exts ↔
      ((∃ e ∈ exts, ∃ deps, e.extensionDependencies = some deps ∧ d ∈ deps) ∧
        ∀ r ∈ exts, toLowerCase r.identifier.value ≠ toLowerCase d) := by
  rw [mem_getAllMissingDependencies]
  refine and_congr_right fun _ => ?_
  rw [mem_runningExtensionsIds]
  simp only [not_exists, not_and]

/-- Claim C5 counterexample: running extension "A" declares the dependencies
"B" and "b" — the same missing identifier occurring twice, differing only in
letter case — yet `getAllMissingDependencies` returns both casings, so the
identifier is returned twice rather than exactly once with the casing of its
first occurrence. -/
theorem getAllMissingDependencies_caseVariant_cex :
    getAllMissingDependencies
        [{ identifier := { value := "A" }, extensionDependencies := some ["B", "b"] }] =
      ["B", "b"] ∧
    (getAllMissingDependencies
        [{ identifier := { value := "A" }, extensionDependencies := some ["B", "b"] }]).countP
        (fun d => toLowerCase d == "b") ≠ 1 := by
  decide

/-- Claim C5 (amended): for every list of running extensions, each missing
dependency string is returned at most once — repeated occurrences with
identical casing are collapsed by the set, keeping the first occurrence —
while occurrences differing only in letter case are kept as distinct
elements, one per distinct casing. -/
theorem getAllMissingDependencies_nodup (exts : List IExtensionDescription) :
    (getAllMissingDependencies exts).Nodup := by
  unfold getAllMissingDependencies
  exact nodup_missingFold exts [] List.nodup_nil

/-- Claim C9: `getAllMissingDependencies` is a total function of the
running-extension list — including lists containing extensions whose
`extensionDependencies` field is undefined (`none`) — and every identifier it
returns comes from the declared dependency list of an extension that has one,
so an extension with no `extensionDependencies` contributes no identifiers. -/
theorem getAllMissingDependencies_sources (exts : List IExtensionDescription) (d : String)
    (h : d ∈ getAllMissingDependencies exts) :
    ∃ e ∈ exts, ∃ deps, e.extensionDependencies = some deps ∧ d ∈ deps :=
  (mem_getAllMissingDependencies.mp h).1

/-- A running-extension list containing an extension with an undefined
`extensionDependencies` field, used to instantiate the C9 theorem. -/
def runningWithUndefinedDeps : List IExtensionDescription :=
  [{ identifier := { value := "A" }, extensionDependencies := some ["B"] },
   { identifier := { value := "C" }, extensionDependencies := none }]

/-- Witness instantiating the C9 theorem on a list with an undefined
`extensionDependencies` field. -/
theorem getAllMissingDependencies_sources_witness :
    "B" ∈ getAllMissingDependencies runningWithUndefinedDeps ∧
    ∃ e ∈ runningWithUndefinedDeps, ∃ deps, e.extensionDependencies = some deps ∧ "B" ∈ deps :=
  ⟨by decide, getAllMissingDependencies_sources runningWithUndefinedDeps "B" (by decide)⟩

/-- Claim C4: every identifier returned by `getUninstalledMissingDependencies`
is also returned by `getAllMissingDependencies`, and the identifiers removed
are exactly those for which some locally installed extension matches under
the `areSameExtensions` identity-normalized comparison. -/
theorem getUninstalledMissingDependencies_exact (running : List IExtensionDescription)
    (locals : List ILocalExtension) (d : String) :
    d ∈ getUninstalledMissingDependencies running locals ↔
      (d ∈ getAllMissingDependencies running ∧
        ∀ l ∈ locals, areSameExtensions l.identifier ⟨d⟩ = false) := by
  unfold getUninstalledMissingDependencies
  rw [List.mem_filter]
  simp [List.all_eq_true]

theorem checkAndInstallMissingDependencies_eq (s : Services) :
    checkAndInstallMissingDependencies s =
      if getUninstalledMissingDependencies s.runningExtensions s.localExtensions ≠ [] ∧
          s.autoInstallMissingDependencies = true
      then installMissingDependencies s
      else { events := [], rejected := none } := by
  unfold checkAndInstallMissingDependencies
  simp only []
  exact if_congr (and_congr_left fun _ => List.length_pos) rfl rfl

theorem checkAndInstallMissingDependencies_flagOff (s : Services)
    (h : s.autoInstallMissingDependencies = false) :
    checkAndInstallMissingDependencies s = { events := [], rejected := none } := by
  rw [checkAndInstallMissingDependencies_eq, if_neg]
  rintro ⟨-, hx⟩
  rw [h] at hx
  exact Bool.noConfusion hx

/-- Claim C2: `checkAndInstallMissingDependencies` triggers
`installMissingDependencies` if and only if the uninstalled missing
dependency list is non-empty and the configuration value
`extensions.autoInstallMissingDependencies` is true; in every other case its
trace of service calls is empty — no gallery query and no notification. -/
theorem checkAndInstallMissingDependencies_exact (s : Services) :
    (checkAndInstallMissingDependencies s = installMissingDependencies s ↔
      (getUninstalledMissingDependencies s.runningExtensions s.localExtensions ≠ [] ∧
        s.autoInstallMissingDependencies = true)) ∧
    (¬(getUninstalledMissingDependencies s.runningExtensions s.localExtensions ≠ [] ∧
        s.autoInstallMissingDependencies = true) →
      (checkAndInstallMissingDependencies s).events = []) := by
  rw [checkAndInstallMissingDependencies_eq]
  by_cases h : getUninstalledMissingDependencies s.runningExtensions s.localExtensions ≠ [] ∧
      s.autoInstallMissingDependencies = true
  · rw [if_pos h]
    exact ⟨⟨fun _ => h, fun _ => rfl⟩, fun hc => absurd h hc⟩
  · rw [if_neg h]
    refine ⟨⟨fun he => ?_, fun hc => absurd hc h⟩, fun _ => rfl⟩
    exact absurd (congrArg RunResult.events he).symm (installMissingDependencies_events_ne_nil s)

/-- Service state with no extensions at all and the auto-install flag off. -/
def servicesNoAuto : Services :=
  { runningExtensions := [], localExtensions := [],
    galleryFirstPage := fun _ _ => [], installError := fun _ => none,
    autoInstallMissingDependencies := false }

/-- Witness instantiating the C2 theorem on a state where the trigger
condition fails, observing the empty trace. -/
theorem checkAndInstallMissingDependencies_exact_witness :
    ¬(getUninstalledMissingDependencies servicesNoAuto.runningExtensions
          servicesNoAuto.localExtensions ≠ [] ∧
        servicesNoAuto.autoInstallMissingDependencies = true) ∧
    (checkAndInstallMissingDependencies servicesNoAuto).events = [] :=
  ⟨by decide, (checkAndInstallMissingDependencies_exact servicesNoAuto).2 (by decide)⟩

/-- Claim C6: when the uninstalled missing dependency list is empty,
`installMissingDependencies` shows exactly one informational notification
saying there is nothing to install, and issues no gallery query and no
install call. -/
theorem installMissingDependencies_nothingMissing (s : Services)
    (h : getUninstalledMissingDependencies s.runningExtensions s.localExtensions = []) :
    installMissingDependencies s =
      { events := [Event.info noMissingMessage], rejected := none } := by
  unfold installMissingDependencies
  simp [h]

/-- Service state with no running extensions, so nothing is missing. -/
def servicesNothingMissing : Services :=
  { runningExtensions := [], localExtensions := [],
    galleryFirstPage := fun _ _ => [], installError := fun _ => none,
    autoInstallMissingDependencies := true }

/-- Witness instantiating the C6 theorem on a state with an empty missing
list. -/
theorem installMissingDependencies_nothingMissing_witness :
    getUninstalledMissingDependencies servicesNothingMissing.runningExtensions
        servicesNothingMissing.localExtensions = [] ∧
    installMissingDependencies servicesNothingMissing =
      { events := [Event.info noMissingMessage], rejected := none } :=
  ⟨by decide, installMissingDependencies_nothingMissing servicesNothingMissing (by decide)⟩

/-- Claim C7: when the uninstalled missing dependency list is non-empty but
the gallery query's first page contains zero extensions, the run consists of
the gallery query alone: no install call is issued and no notification of any
kind is shown (silent no-op), and the promise resolves. -/
theorem installMissingDependencies_emptyGallery (s : Services) (missing : List String)
    (hmiss : getUninstalledMissingDependencies s.runningExtensions s.localExtensions = missing)
    (hne : missing ≠ [])
    (hgal : s.galleryFirstPage missing missing.length = []) :
    installMissingDependencies s =
      { events := [Event.galleryQuery missing missing.length], rejected := none } := by
  unfold installMissingDependencies
  simp only []
  rw [hmiss, hgal, if_pos (fun h0 => hne (List.length_eq_zero.mp h0)), if_neg (by simp)]

/-- Service state with one missing dependency and a gallery that finds no
matching extension. -/
def servicesEmptyGallery : Services :=
  { runningExtensions := [{ identifier := { value := "A" }, extensionDependencies := some ["B"] }],
    localExtensions := [],
    galleryFirstPage := fun _ _ => [], installError := fun _ => none,
    autoInstallMissingDependencies := false }

/-- Witness instantiating the C7 theorem on a state whose gallery returns an
empty first page. -/
theorem installMissingDependencies_emptyGallery_witness :
    (getUninstalledMissingDependencies servicesEmptyGallery.runningExtensions
          servicesEmptyGallery.localExtensions = ["B"] ∧
      (["B"] : List String) ≠ [] ∧
      servicesEmptyGallery.galleryFirstPage ["B"] 1 = []) ∧
    installMissingDependencies servicesEmptyGallery =
      { events := [Event.galleryQuery ["B"] 1], rejected := none } :=
  ⟨⟨by decide, by decide, rfl⟩,
    installMissingDependencies_emptyGallery servicesEmptyGallery ["B"] (by decide) (by decide) rfl⟩

/-- Claim C3: when the uninstalled missing dependency list is non-empty, the
gallery query's first page holds N > 0 descriptors, and every install
resolves, the run consists of the gallery query, then an install call for
exactly those N descriptors — all issued before the joint await — and then
exactly one `Severity.Info` notification with the finished message carrying
the reload-window action, emitted only after all install calls; the run's
promise resolves. -/
theorem installMissingDependencies_success (s : Services) (missing exts : List String)
    (hmiss : getUninstalledMissingDependencies s.runningExtensions s.localExtensions = missing)
    (hgal : s.galleryFirstPage missing missing.length = exts)
    (hne : missing ≠ []) (hexts : exts ≠ [])
    (hok : ∀ e ∈ exts, s.installError e = none) :
    installMissingDependencies s =
      { events := Event.galleryQuery missing missing.length ::
          (exts.map Event.install ++ [Event.notify Severity.info finishedMessage true]),
        rejected := none } := by
  unfold installMissingDependencies
  simp only []
  rw [hmiss, hgal, if_pos (fun h0 => hne (List.length_eq_zero.mp h0)),
    if_pos (fun h0 => hexts (List.length_eq_zero.mp h0)),
    (findSome?_eq_none_iff exts s.installError).mpr hok]

/-- Service state with one missing dependency, a gallery that returns the
queried names, and installs that all resolve. -/
def servicesInstallOk : Services :=
  { runningExtensions := [{ identifier := { value := "A" }, extensionDependencies := some ["B"] }],
    localExtensions := [],
    galleryFirstPage := fun names _ => names, installError := fun _ => none,
    autoInstallMissingDependencies := false }

/-- Witness instantiating the C3 theorem on a state where the gallery finds
the one missing dependency and its install resolves. -/
theorem installMissingDependencies_success_witness :
    (getUninstalledMissingDependencies servicesInstallOk.runningExtensions
          servicesInstallOk.localExtensions = ["B"] ∧
      servicesInstallOk.galleryFirstPage ["B"] 1 = ["B"] ∧
      (["B"] : List String) ≠ [] ∧
      ∀ e ∈ (["B"] : List String), servicesInstallOk.installError e = none) ∧
    installMissingDependencies servicesInstallOk =
      { events := [Event.galleryQuery ["B"] 1, Event.install "B",
          Event.notify Severity.info finishedMessage true],
        rejected := none } :=
  ⟨⟨by decide, rfl, by decide, by decide⟩,
    installMissingDependencies_success servicesInstallOk ["B"] ["B"]
      (by decide) rfl (by decide) (by decide) (by decide)⟩

/-- Claim C8: when at least one install call rejects, the run still issues
the install calls for all returned descriptors (none cancelled or rolled
back), the finished notification is not shown, and the whole run rejects with
the propagated (first) install rejection. -/
theorem installMissingDependencies_installRejects (s : Services) (missing exts : List String)
    (e err : String)
    (hmiss : getUninstalledMissingDependencies s.runningExtensions s.localExtensions = missing)
    (hgal : s.galleryFirstPage missing missing.length = exts)
    (hne : missing ≠ []) (he : e ∈ exts) (herr : s.installError e = some err) :
    (installMissingDependencies s).events =
        Event.galleryQuery missing missing.length :: exts.map Event.install ∧
      (installMissingDependencies s).rejected = exts.findSome? s.installError ∧
      (installMissingDependencies s).rejected ≠ none := by
  have hexts : exts ≠ [] := by
    intro h0
    rw [h0] at he
    exact List.not_mem_nil e he
  have hfind : exts.findSome? s.installError ≠ none := by
    intro h0
    have := (findSome?_eq_none_iff exts s.installError).mp h0 e he
    rw [herr] at this
    exact Option.noConfusion this
  unfold installMissingDependencies
  simp only []
  rw [hmiss, hgal, if_pos (fun h0 => hne (List.length_eq_zero.mp h0)),
    if_pos (fun h0 => hexts (List.length_eq_zero.mp h0))]
  cases hcase : exts.findSome? s.installError with
  | none => exact absurd hcase hfind
  | some err2 =>
    exact ⟨rfl, rfl, fun h0 => Option.noConfusion h0⟩

/-- Service state with one missing dependency whose install rejects. -/
def servicesInstallFails : Services :=
  { runningExtensions := [{ identifier := { value := "A" }, extensionDependencies := some ["B"] }],
    localExtensions := [],
    galleryFirstPage := fun names _ => names,
    installError := fun _ => some "ECONNRESET",
    autoInstallMissingDependencies := false }

/-- Witness instantiating the C8 theorem on a state whose single install
rejects. -/
theorem installMissingDependencies_installRejects_witness :
    (getUninstalledMissingDependencies servicesInstallFails.runningExtensions
          servicesInstallFails.localExtensions = ["B"] ∧
      servicesInstallFails.galleryFirstPage ["B"] 1 = ["B"] ∧
      "B" ∈ (["B"] : List String) ∧
      servicesInstallFails.installError "B" = some "ECONNRESET") ∧
    ((installMissingDependencies servicesInstallFails).events =
        [Event.galleryQuery ["B"] 1, Event.install "B"] ∧
      (installMissingDependencies servicesInstallFails).rejected =
        (["B"] : List String).findSome? servicesInstallFails.installError ∧
      (installMissingDependencies servicesInstallFails).rejected ≠ none) :=
  ⟨⟨by decide, rfl, by decide, rfl⟩,
    installMissingDependencies_installRejects servicesInstallFails ["B"] ["B"] "B" "ECONNRESET"
      (by decide) rfl (by decide) (by decide) rfl⟩

/-- Claim C10: along every execution trace of the contribution, a step shows
a notification only if it is an invocation of the registered command
`workbench.extensions.installMissingDepenencies`, or it is an automatic check
(at construction or on a change of the watched configuration key) made while
`extensions.autoInstallMissingDependencies` is true; automatic checks with
the flag false never produce any notification. -/
theorem runTrigger_notification_source (trace : List (Trigger × Services))
    (t : Trigger) (s : Services) (hstep : (t, s) ∈ trace) (e : Event)
    (he : e ∈ (runTrigger t s).events) (_hn : e.isNotification = true) :
    t = Trigger.commandInvocation ∨ s.autoInstallMissingDependencies = true := by
  cases t with
  | commandInvocation => exact Or.inl rfl
  | construction =>
    cases hb : s.autoInstallMissingDependencies with
    | true => exact Or.inr rfl
    | false =>
      rw [show runTrigger Trigger.construction s = checkAndInstallMissingDependencies s from rfl,
        checkAndInstallMissingDependencies_flagOff s hb] at he
      exact absurd he (List.not_mem_nil e)
  | configurationChange =>
    cases hb : s.autoInstallMissingDependencies with
    | true => exact Or.inr rfl
    | false =>
      rw [show runTrigger Trigger.configurationChange s =
            checkAndInstallMissingDependencies s from rfl,
        checkAndInstallMissingDependencies_flagOff s hb] at he
      exact absurd he (List.not_mem_nil e)

/-- Service state used to exercise a command-invocation step of a trace. -/
def servicesCommandRun : Services :=
  { runningExtensions := [], localExtensions := [],
    galleryFirstPage := fun _ _ => [], installError := fun _ => none,
    autoInstallMissingDependencies := false }

/-- Witness instantiating the C10 theorem on a one-step trace in which the
registered command is invoked and shows a notification. -/
theorem runTrigger_notification_source_witness :
    ((Trigger.commandInvocation, servicesCommandRun) ∈
        [(Trigger.commandInvocation, servicesCommandRun)] ∧
      Event.info noMissingMessage ∈
        (runTrigger Trigger.commandInvocation servicesCommandRun).events ∧
      (Event.info noMissingMessage).isNotification = true) ∧
    (Trigger.commandInvocation = Trigger.commandInvocation ∨
      servicesCommandRun.autoInstallMissingDependencies = true) :=
  ⟨⟨List.mem_cons_self _ _, by decide, rfl⟩,
    runTrigger_notification_source [(Trigger.commandInvocation, servicesCommandRun)]
      Trigger.commandInvocation servicesCommandRun (List.mem_cons_self _ _)
      (Event.info noMissingMessage) (by decide) rfl⟩
